import Mathlib

/-!
# c-lessons-and-examples: a shallow embedding of `main.c`

The C program is a menu loop over nine small example routines.  This file
translates the routines into Lean functions over an explicit world state
(standard input, standard output, standard error, the heap and the
allocator's decisions) and proves the properties the specification states
about them.

Conventions of the embedding:

* `int` is 32 bits wide and `long long` is 64 bits wide; `sizeof` values are
  those of the usual LP64 ABI.
* Behaviour the C standard leaves undefined (signed overflow, an out-of-bounds
  or uninitialised read, releasing a block that is not live) is the result
  `none`.
* A numeral that `scanf("%d")` reads and that does not fit an `int` is
  converted the way the C library does it on this ABI: to a 64-bit `long` as
  by `strtol` (saturating at `LONG_MAX` / `LONG_MIN`), of which the low 32
  bits are stored in the `int`.  So `4294967301` is read as 5.
* Loops are structural recursions on a fuel argument; each caller passes as
  much fuel as the loop can use.
* Standard output and standard error are lists of chunks, one chunk per
  `printf` / `fprintf` call, in program order.
-/

namespace CLessons

/-! ## Machine integers -/

/-- Largest value of a 32-bit `int`. -/
def INT_MAX : Int := 2147483647

/-- Smallest value of a 32-bit `int`. -/
def INT_MIN : Int := -2147483648

/-- Largest value of a 64-bit `long long`. -/
def LLONG_MAX : Int := 9223372036854775807

/-- Smallest value of a 64-bit `long long`. -/
def LLONG_MIN : Int := -9223372036854775808

/-- Two's complement reading of an integer modulo `2^64`. -/
def wrap64 (x : Int) : Int := (x + 2 ^ 63) % 2 ^ 64 - 2 ^ 63

/-- Size in bytes of `char`. -/
def sizeof_char : Nat := 1

/-- Size in bytes of `int`. -/
def sizeof_int : Nat := 4

/-- Size in bytes of `float`. -/
def sizeof_float : Nat := 4

/-- Size in bytes of `double`. -/
def sizeof_double : Nat := 8

/-- Size in bytes of `struct Student { int id; float gpa; char name[16]; }`. -/
def sizeof_Student : Nat := 24

/-! ## `factorial` (main.c, lines 9-13) -/

/-- The loop `for (int i = 2; i <= n; ++i) result *= i;` with C semantics:
a product outside the `long long` range, or an increment of `i` past
`INT_MAX`, is undefined behaviour (`none`). -/
def factorialLoop (n : Int) : Nat → Int → Int → Option Int
  | 0, _, result => some result
  | fuel + 1, i, result =>
    if i ≤ n then
      if LLONG_MIN ≤ result * i ∧ result * i ≤ LLONG_MAX ∧ i + 1 ≤ INT_MAX then
        factorialLoop n fuel (i + 1) (result * i)
      else none
    else some result

/-- The function `long long factorial(int n)`: `result = 1`, then the loop from `i = 2`. -/
def factorial (n : Int) : Option Int := factorialLoop n n.toNat 2 1

/-- The same loop with the accumulator reduced modulo `2^64` after every
multiplication (what a two's complement machine computes). -/
def factorialWrapLoop (n : Int) : Nat → Int → Int → Int
  | 0, _, result => result
  | fuel + 1, i, result =>
    if i ≤ n then factorialWrapLoop n fuel (i + 1) (wrap64 (result * i)) else result

/-- The function `factorial` on a wrapping 64-bit accumulator. -/
def factorialWrap (n : Int) : Int := factorialWrapLoop n n.toNat 2 1

/-! ## The world: streams, heap, allocator decisions -/

/-- What the allocator decides at one `malloc` / `realloc` call.  For `malloc`
both `inPlace` and `moved` mean success. -/
inductive AllocChoice where
  | fail
  | inPlace
  | moved
deriving DecidableEq, Repr

/-- The heap: live blocks of `int` cells (`none` is an uninitialised cell),
the number of addresses handed out so far, and the log of released addresses
(by `free`, or by a `realloc` that moved the block). -/
structure Heap where
  blocks : List (Nat × List (Option Int))
  count : Nat
  freed : List Nat
deriving DecidableEq, Repr

/-- The state a routine runs in.  `factorialCalls` is a ghost log of the
arguments `factorial` was called with. -/
structure World where
  stdin : List Char
  stdout : List String
  stderr : List String
  heap : Heap
  alloc : List AllocChoice
  factorialCalls : List Int
deriving DecidableEq, Repr

/-- The world a process starts in. -/
def World.start (input : List Char) (alloc : List AllocChoice) : World :=
  { stdin := input, stdout := [], stderr := [],
    heap := { blocks := [], count := 0, freed := [] },
    alloc := alloc, factorialCalls := [] }

/-- One `printf` call writing the already formatted text `s`. -/
def printf (s : String) (w : World) : World :=
  { w with stdout := w.stdout ++ [s] }

/-- One `fprintf(stderr, ...)` call writing the already formatted text `s`. -/
def fprintf_stderr (s : String) (w : World) : World :=
  { w with stderr := w.stderr ++ [s] }

/-! ## `scanf("%d", &x)` -/

/-- C `isspace` in the "C" locale. -/
def isspace (c : Char) : Bool :=
  c = ' ' || c = '\t' || c = '\n' || c = Char.ofNat 11 || c = Char.ofNat 12 || c = '\r'

/-- C `isdigit`. -/
def isdigit (c : Char) : Bool := decide ('0' ≤ c) && decide (c ≤ '9')

/-- Value of a sequence of decimal digits. -/
def digitsValue (ds : List Char) : Nat :=
  ds.foldl (fun acc c => 10 * acc + (c.toNat - '0'.toNat)) 0

/-- Result of one `scanf("%d", &x)`: end of input (`scanf` returns `EOF`), a
matching failure (`scanf` returns 0; `rest` is what is left unread), or
success (`scanf` returns 1 and stores `v`, a value of type `int`). -/
inductive ScanResult where
  | eof
  | fail (rest : List Char)
  | ok (v : Int) (rest : List Char)
deriving DecidableEq, Repr

/-- Largest value of a 64-bit `long`. -/
def LONG_MAX : Int := 9223372036854775807

/-- Smallest value of a 64-bit `long`. -/
def LONG_MIN : Int := -9223372036854775808

/-- The value `strtol` returns for a numeral of value `v`: `v` itself inside
the range of `long`, else the nearer end of the range. -/
def strtolValue (v : Int) : Int :=
  if v < LONG_MIN then LONG_MIN else if LONG_MAX < v then LONG_MAX else v

/-- The conversion `(int) x` of a `long`: the low 32 bits, read in two's
complement. -/
def intOfLong (x : Int) : Int := (x + 2 ^ 31) % 2 ^ 32 - 2 ^ 31

/-- The digits of a `%d` conversion, after the optional sign.  Without a digit
the directive fails and `s` stays unread.  With digits the directive succeeds
on every numeral: the library converts it as by `strtol` and stores the result
converted to `int`, which is the numeral's value whenever that fits an
`int`. -/
def scanNumber (neg : Bool) (s : List Char) : ScanResult :=
  let ds := s.takeWhile isdigit
  if ds = [] then ScanResult.fail s
  else
    let v : Int := if neg then -(digitsValue ds : Int) else (digitsValue ds : Int)
    ScanResult.ok (intOfLong (strtolValue v)) (s.dropWhile isdigit)

/-- The directive `%d`: skip white space, read an optional sign, read the
longest run of digits.  White space and a sign that were read are consumed
also when the directive fails; the character that does not match, and what
follows it, stay in the stream. -/
def scanf_d (s : List Char) : ScanResult :=
  match s.dropWhile isspace with
  | [] => ScanResult.eof
  | c :: t =>
    if c = '-' then scanNumber true t
    else if c = '+' then scanNumber false t
    else scanNumber false (c :: t)

/-! ## Heap primitives -/

/-- Cells of the live block at address `p`. -/
def findBlock (p : Nat) : List (Nat × List (Option Int)) → Option (List (Option Int))
  | [] => none
  | (q, cells) :: rest => if q = p then some cells else findBlock p rest

/-- Replace the cells of the live block at address `p`. -/
def setBlock (p : Nat) (cells : List (Option Int)) :
    List (Nat × List (Option Int)) → List (Nat × List (Option Int))
  | [] => []
  | (q, old) :: rest =>
    if q = p then (q, cells) :: rest else (q, old) :: setBlock p cells rest

/-- Remove the live block at address `p`. -/
def dropBlock (p : Nat) : List (Nat × List (Option Int)) → List (Nat × List (Option Int))
  | [] => []
  | (q, old) :: rest => if q = p then rest else (q, old) :: dropBlock p rest

/-- Next decision of the allocator; an exhausted list means success. -/
def popChoice : List AllocChoice → AllocChoice × List AllocChoice
  | [] => (AllocChoice.inPlace, [])
  | c :: rest => (c, rest)

/-- Cells of a block resized to `n` cells: the old contents up to the smaller
of the two sizes, the rest uninitialised. -/
def resizeCells (cells : List (Option Int)) (n : Nat) : List (Option Int) :=
  cells.take n ++ List.replicate (n - cells.length) none

/-- The call `malloc(bytes)` for an array of `int`: the null pointer `0` on failure,
else a fresh address with `bytes / sizeof(int)` uninitialised cells. -/
def malloc (bytes : Nat) (w : World) : Nat × World :=
  match popChoice w.alloc with
  | (AllocChoice.fail, rest) => (0, { w with alloc := rest })
  | (_, rest) =>
    (w.heap.count + 1,
      { w with
        alloc := rest
        heap := { blocks := (w.heap.count + 1, List.replicate (bytes / sizeof_int) none)
                              :: w.heap.blocks
                  count := w.heap.count + 1
                  freed := w.heap.freed } })

/-- The call `realloc(p, bytes)` for a live block `p`: on failure the null pointer and
the block untouched; on success either the same address resized, or a fresh
address holding the old contents with the old block released. -/
def realloc (p : Nat) (bytes : Nat) (w : World) : Option (Nat × World) :=
  if p = 0 then some (malloc bytes w)
  else
    match findBlock p w.heap.blocks with
    | none => none
    | some cells =>
      match popChoice w.alloc with
      | (AllocChoice.fail, rest) => some (0, { w with alloc := rest })
      | (AllocChoice.inPlace, rest) =>
        some (p,
          { w with
            alloc := rest
            heap := { blocks := setBlock p (resizeCells cells (bytes / sizeof_int)) w.heap.blocks
                      count := w.heap.count
                      freed := w.heap.freed } })
      | (AllocChoice.moved, rest) =>
        some (w.heap.count + 1,
          { w with
            alloc := rest
            heap := { blocks := (w.heap.count + 1, resizeCells cells (bytes / sizeof_int))
                                  :: dropBlock p w.heap.blocks
                      count := w.heap.count + 1
                      freed := w.heap.freed ++ [p] } })

/-- The call `free(p)`: nothing for the null pointer, undefined for a block that is not
live, else the block is removed and the release logged. -/
def free (p : Nat) (w : World) : Option World :=
  if p = 0 then some w
  else
    match findBlock p w.heap.blocks with
    | none => none
    | some _ =>
      some { w with
             heap := { blocks := dropBlock p w.heap.blocks
                       count := w.heap.count
                       freed := w.heap.freed ++ [p] } }

/-- The read `p[i]`: undefined outside the block or on an uninitialised cell. -/
def load (p : Nat) (i : Nat) (w : World) : Option Int :=
  match findBlock p w.heap.blocks with
  | none => none
  | some cells =>
    match cells[i]? with
    | some (some v) => some v
    | _ => none

/-- The write `p[i] = v`: undefined outside the block. -/
def store (p : Nat) (i : Nat) (v : Int) (w : World) : Option World :=
  match findBlock p w.heap.blocks with
  | none => none
  | some cells =>
    if i < cells.length then
      some { w with
             heap := { blocks := setBlock p (cells.set i (some v)) w.heap.blocks
                       count := w.heap.count
                       freed := w.heap.freed } }
    else none

/-! ## The example routines -/

/-- Routine `ex_hello` (lines 16-18). -/
def ex_hello (w : World) : World := printf "Hello, C!\\n" w

/-- Routine `ex_types` (lines 21-26).  The two floating-point values are printed as
the text `%.2f` and `%.5f` give for the literals `3.14f` and `2.71828`. -/
def ex_types (w : World) : World :=
  let i : Int := 10
  let c : Char := 'A'
  let w := printf ("i=" ++ toString i ++ " f=3.14 d=2.71828 c=" ++ String.singleton c ++ "\\n") w
  printf ("sizeof(char)=" ++ toString sizeof_char ++ " sizeof(int)=" ++ toString sizeof_int
    ++ " sizeof(float)=" ++ toString sizeof_float ++ " sizeof(double)=" ++ toString sizeof_double
    ++ "\\n") w

/-- The loop `for (int i = 0; i < 5; ++i) printf("%d ", i);` of `ex_control`. -/
def printCount (n : Nat) : Nat → Nat → World → World
  | 0, _, w => w
  | fuel + 1, i, w =>
    if i < n then printCount n fuel (i + 1) (printf (toString i ++ " ") w) else w

/-- Routine `ex_control` (lines 29-35). -/
def ex_control (w : World) : World :=
  let x : Int := 7
  let w := if x % 2 = 0 then printf (toString x ++ " is even\\n") w
           else printf (toString x ++ " is odd\\n") w
  let w := printf "for loop: " w
  let w := printCount 5 5 0 w
  printf "\\n" w

/-- Memory holding `int` objects, by address. -/
abbrev Mem := Nat → Int

/-- The helper `static void swap(int *a, int *b)`: `t = *a; *a = *b; *b = t;`. -/
def swap (a b : Nat) (m : Mem) : Mem :=
  let t := m a
  let m := Function.update m a (m b)
  Function.update m b t

/-- Routine `ex_functions` (lines 39-41): the locals `a` and `b` live at the distinct
addresses 0 and 1 of the routine's frame. -/
def ex_functions (w : World) : World :=
  let addr_a : Nat := 0
  let addr_b : Nat := 1
  let m : Mem := Function.update (Function.update (fun _ => 0) addr_a 3) addr_b 9
  let m := swap addr_a addr_b m
  printf ("swap -> a=" ++ toString (m addr_a) ++ " b=" ++ toString (m addr_b) ++ "\\n") w

/-- The read `arr[i]` of an array object: undefined outside the array. -/
def subscript (arr : List Int) (i : Nat) : Option Int := arr[i]?

/-- The read `*q` through a pointer `q` into an array object, the pointer being
the number of elements between the start of the array and the element it
points to: undefined at or past the end. -/
def deref (arr : List Int) (q : Nat) : Option Int := (arr.drop q).head?

/-- The loop `for (int i=0;i<5;++i) printf("%d ", arr[i]);` -/
def printIndexed (arr : List Int) (n : Nat) : Nat → Nat → World → Option World
  | 0, _, w => some w
  | fuel + 1, i, w =>
    if i < n then
      match subscript arr i with
      | none => none
      | some v => printIndexed arr n fuel (i + 1) (printf (toString v ++ " ") w)
    else some w

/-- The loop `for (int i=0;i<5;++i) printf("%d ", *(p+i));` -/
def printPointer (arr : List Int) (p : Nat) (n : Nat) : Nat → Nat → World → Option World
  | 0, _, w => some w
  | fuel + 1, i, w =>
    if i < n then
      match deref arr (p + i) with
      | none => none
      | some v => printPointer arr p n fuel (i + 1) (printf (toString v ++ " ") w)
    else some w

/-- Routine `ex_arrays_pointers` (lines 44-52); `int *p = arr` points at element 0. -/
def ex_arrays_pointers (w : World) : Option World :=
  let arr : List Int := [10, 20, 30, 40, 50]
  let p : Nat := 0
  let w := printf "arr via indexing: " w
  match printIndexed arr 5 5 0 w with
  | none => none
  | some w =>
    let w := printf "\\narr via pointer:  " w
    match printPointer arr p 5 5 0 w with
    | none => none
    | some w => some (printf "\\n" w)

/-- The terminating character of a C string. -/
def NUL : Char := Char.ofNat 0

/-- The loop `while (*t) ++t;` of `my_strlen`: the first argument is the part
of the object from `t` to its end, the second is `t - s`.  Reading past the
end of the object is undefined. -/
def my_strlen_loop : List Char → Nat → Option Nat
  | [], _ => none
  | c :: rest, k => if c ≠ NUL then my_strlen_loop rest (k + 1) else some k

/-- The function `size_t my_strlen(const char *s)`, `s` pointing `s` characters into the
object `mem`. -/
def my_strlen (mem : List Char) (s : Nat) : Option Nat :=
  my_strlen_loop (mem.drop s) 0

/-- The characters of a C string stored at the start of `mem`. -/
def cstring (mem : List Char) : List Char := mem.takeWhile (fun c => c ≠ NUL)

/-- The library `strcat(dest, src)` on a destination object `dest`: the
characters of `src` and a terminator are written from the terminator of `dest`
on.  Undefined when a string is unterminated or the result does not fit. -/
def strcat (dest src : List Char) : Option (List Char) :=
  if NUL ∈ dest ∧ NUL ∈ src ∧ (cstring dest).length + (cstring src).length + 1 ≤ dest.length then
    some (cstring dest ++ cstring src ++ [NUL]
      ++ dest.drop ((cstring dest).length + (cstring src).length + 1))
  else none

/-- An array `char buf[cap] = "..."`: the literal, then zeros up to `cap`. -/
def charArray (cap : Nat) (lit : String) : List Char :=
  lit.toList ++ List.replicate (cap - lit.length) NUL

/-- Routine `ex_strings` (lines 56-60). -/
def ex_strings (w : World) : Option World :=
  let buf := charArray 32 "Apple"
  match strcat buf (charArray 7 "Vision") with
  | none => none
  | some buf =>
    match my_strlen buf 0 with
    | none => none
    | some len =>
      some (printf ("buf=\x27" ++ String.mk (cstring buf) ++ "\x27 len=" ++ toString len
        ++ "\\n") w)

/-- The loops `for (int i=lo;i<n;++i) a[i] = i*i;` of `ex_dynamic_memory`. -/
def fillSquares (a : Nat) (n : Nat) : Nat → Nat → World → Option World
  | 0, _, w => some w
  | fuel + 1, i, w =>
    if i < n then
      match store a i ((i : Int) * (i : Int)) w with
      | none => none
      | some w => fillSquares a n fuel (i + 1) w
    else some w

/-- The loops `for (int i=0;i<n;++i) printf("%d ", a[i]);` of
`ex_dynamic_memory`. -/
def printCells (a : Nat) (n : Nat) : Nat → Nat → World → Option World
  | 0, _, w => some w
  | fuel + 1, i, w =>
    if i < n then
      match load a i w with
      | none => none
      | some v => printCells a n fuel (i + 1) (printf (toString v ++ " ") w)
    else some w

/-- Routine `ex_dynamic_memory` (lines 63-75). -/
def ex_dynamic_memory (w : World) : Option World :=
  let n : Nat := 5
  match malloc (n * sizeof_int) w with
  | (a, w) =>
    if a = 0 then some (fprintf_stderr "malloc failed\n" w)
    else
      match fillSquares a n n 0 w with
      | none => none
      | some w =>
        let w := printf "malloc: " w
        match printCells a n n 0 w with
        | none => none
        | some w =>
          let w := printf "\\n" w
          let n : Nat := 8
          match realloc a (n * sizeof_int) w with
          | none => none
          | some (b, w) =>
            if b = 0 then free a (fprintf_stderr "realloc failed\n" w)
            else
              match fillSquares b n (n - 5) 5 w with
              | none => none
              | some w =>
                let w := printf "realloc: " w
                match printCells b n n 0 w with
                | none => none
                | some w => free b (printf "\\n" w)

/-- Routine `ex_structs` (lines 79-83).  The score is printed as the text `%.2f` gives
for the literal `3.9f`. -/
def ex_structs (w : World) : World :=
  let id : Int := 1
  let name : String := "Ujwal"
  printf ("Student\x7bid=" ++ toString id ++ ", gpa=3.90, name=" ++ name
    ++ "\x7d sizeof(Student)=" ++ toString sizeof_Student ++ "\\n") w

/-- A call `factorial(n)` made by a routine: the value returned, and the call
entered in the ghost log of the world. -/
def call_factorial (n : Int) (w : World) : Option (Int × World) :=
  match factorial n with
  | none => none
  | some r => some (r, { w with factorialCalls := w.factorialCalls ++ [n] })

/-- Routine `ex_factorial_interactive` (lines 86-92). -/
def ex_factorial_interactive (w : World) : Option World :=
  let w := printf "Enter a non-negative integer (0-20): " w
  match scanf_d w.stdin with
  | ScanResult.eof => some (fprintf_stderr "Invalid input.\\n" { w with stdin := [] })
  | ScanResult.fail rest => some (fprintf_stderr "Invalid input.\\n" { w with stdin := rest })
  | ScanResult.ok n rest =>
    let w := { w with stdin := rest }
    if n < 0 ∨ n > 20 then
      some (fprintf_stderr "Please enter a value between 0 and 20.\\n" w)
    else
      match call_factorial n w with
      | none => none
      | some (r, w) => some (printf (toString n ++ "! = " ++ toString r ++ "\\n") w)

/-! ## The menu loop -/

/-- The twelve `printf` calls of `print_menu` (lines 94-107). -/
def menuText : List String :=
  ["\nC Examples Menu:\n",
   " 1) Hello (Lesson 1)\n",
   " 2) Types & sizes (Lesson 2)\n",
   " 3) Control & loops (Lesson 3)\n",
   " 4) Functions & swap (Lesson 4)\n",
   " 5) Arrays & pointers (Lesson 5)\n",
   " 6) Strings & strlen (Lesson 6)\n",
   " 7) Dynamic memory (Lesson 7)\n",
   " 8) Structs & layout (Lesson 8)\n",
   " 9) Factorial (original)\n",
   " 0) Exit\n",
   "Choose: "]

/-- The function `print_menu`. -/
def print_menu (w : World) : World := menuText.foldl (fun w s => printf s w) w

/-- What one pass through the body of `for (;;)` ends in: the loop goes on,
`main` returns a status, or a routine ran into undefined behaviour. -/
inductive Step where
  | next (w : World)
  | stop (status : Int) (w : World)
  | ub
deriving DecidableEq, Repr

/-- A routine that returned goes back to the loop (`break`). -/
def Step.ofRoutine : Option World → Step
  | none => Step.ub
  | some w => Step.next w

/-- The `switch (choice)` of `main` (lines 118-130). -/
def runChoice (choice : Int) (w : World) : Step :=
  if choice = 1 then Step.next (ex_hello w)
  else if choice = 2 then Step.next (ex_types w)
  else if choice = 3 then Step.next (ex_control w)
  else if choice = 4 then Step.next (ex_functions w)
  else if choice = 5 then Step.ofRoutine (ex_arrays_pointers w)
  else if choice = 6 then Step.ofRoutine (ex_strings w)
  else if choice = 7 then Step.ofRoutine (ex_dynamic_memory w)
  else if choice = 8 then Step.next (ex_structs w)
  else if choice = 9 then Step.ofRoutine (ex_factorial_interactive w)
  else if choice = 0 then Step.stop 0 (printf "Bye!\\n" w)
  else Step.next (printf "Unknown choice.\\n" w)

/-- Reading the selection and acting on it (lines 113-130). -/
def readChoice (w : World) : Step :=
  match scanf_d w.stdin with
  | ScanResult.eof =>
    Step.stop 1 (fprintf_stderr "\nInput error. Exiting.\n" { w with stdin := [] })
  | ScanResult.fail rest =>
    Step.stop 1 (fprintf_stderr "\nInput error. Exiting.\n" { w with stdin := rest })
  | ScanResult.ok choice rest => runChoice choice { w with stdin := rest }

/-- The body of the loop of `main` (lines 111-130): the menu, then the
selection. -/
def loopBody (w : World) : Step := readChoice (print_menu w)

/-- How a run of the process ends. -/
inductive Outcome where
  | exited (status : Int) (w : World)
  | ub
  | outOfFuel (w : World)
deriving DecidableEq, Repr

/-- The loop `for (;;)` of `main`, at most `fuel` passes. -/
def mainLoop : Nat → World → Outcome
  | 0, w => Outcome.outOfFuel w
  | fuel + 1, w =>
    match loopBody w with
    | Step.next w => mainLoop fuel w
    | Step.stop status w => Outcome.exited status w
    | Step.ub => Outcome.ub

/-- The loop of `main` from the world `w`.  Every pass that goes on has read
at least one character, so one pass per character of input and one more are
enough (`mainLoop_fuel`). -/
def run (w : World) : Outcome := mainLoop (w.stdin.length + 1) w

/-- The function `int main(void)` on the input `input`, the allocator deciding `alloc`. -/
def main (input : String) (alloc : List AllocChoice) : Outcome :=
  run (World.start input.toList alloc)

/-! ## Claims on `factorial` -/

/-- The fuel `factorial` passes to its loop is enough: more fuel does not
change the result. -/
theorem factorialLoop_fuel (n : Int) :
    ∀ (fuel : Nat) (i result : Int), (n + 1 - i).toNat ≤ fuel →
      factorialLoop n fuel i result = factorialLoop n (n + 1 - i).toNat i result := by
  intro fuel
  induction fuel with
  | zero =>
    intro i result h
    rw [Nat.le_zero.mp h]
  | succ k ih =>
    intro i result h
    by_cases hi : i ≤ n
    · obtain ⟨m, hm⟩ : ∃ m, (n + 1 - i).toNat = m + 1 := ⟨(n + 1 - i).toNat - 1, by omega⟩
      have hm2 : (n + 1 - (i + 1)).toNat = m := by omega
      rw [hm]
      simp only [factorialLoop, if_pos hi]
      split_ifs
      · rw [ih (i + 1) (result * i) (by omega), hm2]
      · rfl
    · have h0 : (n + 1 - i).toNat = 0 := by omega
      rw [h0]
      simp only [factorialLoop, if_neg hi]

theorem factorialWrapLoop_fuel (n : Int) :
    ∀ (fuel : Nat) (i result : Int), (n + 1 - i).toNat ≤ fuel →
      factorialWrapLoop n fuel i result = factorialWrapLoop n (n + 1 - i).toNat i result := by
  intro fuel
  induction fuel with
  | zero =>
    intro i result h
    rw [Nat.le_zero.mp h]
  | succ k ih =>
    intro i result h
    by_cases hi : i ≤ n
    · obtain ⟨m, hm⟩ : ∃ m, (n + 1 - i).toNat = m + 1 := ⟨(n + 1 - i).toNat - 1, by omega⟩
      have hm2 : (n + 1 - (i + 1)).toNat = m := by omega
      rw [hm]
      simp only [factorialWrapLoop, if_pos hi]
      rw [ih (i + 1) _ (by omega), hm2]
    · have h0 : (n + 1 - i).toNat = 0 := by omega
      rw [h0]
      simp only [factorialWrapLoop, if_neg hi]

theorem factorial_of_le_twenty (n : Int) (h0 : 0 ≤ n) (h20 : n ≤ 20) :
    factorial n = some ((n.toNat.factorial : Nat) : Int)
      ∧ factorialWrap n = ((n.toNat.factorial : Nat) : Int) := by
  interval_cases n <;> simp only [Int.toNat_ofNat, Nat.factorial] <;> constructor <;> decide

theorem prod_Icc_eq_factorial (m : Nat) :
    Finset.prod (Finset.Icc 1 m) (fun k => (k : Int)) = ((m.factorial : Nat) : Int) := by
  induction m with
  | zero => simp
  | succ k ih =>
    rw [Finset.prod_Icc_succ_top (by omega), ih, Nat.factorial_succ]
    push_cast
    ring

/-- C1: for `0 ≤ n ≤ 20`, `factorial n` is defined (no product leaves the
`long long` range) and equals the product `1 * 2 * ... * n`; the wrapping
64-bit loop gives the same value, and more loop fuel changes nothing.  In
particular `factorial 0 = 1` and `factorial 5 = 120`. -/
theorem factorial_exact (n : Int) (h0 : 0 ≤ n) (h20 : n ≤ 20) :
    factorial n = some (Finset.prod (Finset.Icc 1 n.toNat) (fun k => (k : Int)))
      ∧ factorialWrap n = Finset.prod (Finset.Icc 1 n.toNat) (fun k => (k : Int))
      ∧ (∀ fuel, n.toNat ≤ fuel → factorialLoop n fuel 2 1 = factorial n)
      ∧ factorial 0 = some 1 ∧ factorial 5 = some 120 := by
  rw [prod_Icc_eq_factorial]
  refine ⟨(factorial_of_le_twenty n h0 h20).1, (factorial_of_le_twenty n h0 h20).2, ?_,
    by decide, by decide⟩
  intro fuel hf
  unfold factorial
  rw [factorialLoop_fuel n fuel 2 1 (by omega), factorialLoop_fuel n n.toNat 2 1 (by omega)]

/-- An instance of C1 at `n = 5`. -/
theorem factorial_exact_witness :
    factorial 5 = some (Finset.prod (Finset.Icc 1 (5 : Int).toNat) (fun k => (k : Int))) :=
  (factorial_exact 5 (by decide) (by decide)).1

/-- C10: the limit 20 is tight: `ex_factorial_interactive` accepts 20 and
rejects 21; `20!` fits a `long long` and `factorial 20` is exact, `21!`
exceeds `LLONG_MAX`, so at 21 the loop overflows; on a wrapping 64-bit
accumulator it yields -4249290049419214848, which is not `21!`. -/
theorem factorial_limit_tight :
    ex_factorial_interactive (World.start "20".toList []) = some
        { (World.start [] []) with
          stdout := ["Enter a non-negative integer (0-20): ", "20! = 2432902008176640000\\n"]
          factorialCalls := [20] }
      ∧ ex_factorial_interactive (World.start "21".toList []) = some
        { (World.start [] []) with
          stdout := ["Enter a non-negative integer (0-20): "]
          stderr := ["Please enter a value between 0 and 20.\\n"] }
      ∧ factorial 20 = some 2432902008176640000
      ∧ ((Nat.factorial 20 : Nat) : Int) = 2432902008176640000
      ∧ ((Nat.factorial 20 : Nat) : Int) ≤ LLONG_MAX
      ∧ LLONG_MAX < ((Nat.factorial 21 : Nat) : Int)
      ∧ LLONG_MAX = 2 ^ 63 - 1
      ∧ factorial 21 = none
      ∧ factorialWrap 21 = -4249290049419214848
      ∧ factorialWrap 21 = wrap64 ((Nat.factorial 21 : Nat) : Int)
      ∧ factorialWrap 21 ≠ ((Nat.factorial 21 : Nat) : Int) := by
  have hw : factorialWrap 21 = -4249290049419214848 := by
    norm_num [factorialWrap, factorialWrapLoop, wrap64]
  refine ⟨by decide, by decide, by decide, ?_, ?_, ?_, by decide, by decide, hw, ?_, ?_⟩
  · norm_num [Nat.factorial]
  · norm_num [Nat.factorial, LLONG_MAX]
  · norm_num [Nat.factorial, LLONG_MAX]
  · rw [hw]
    norm_num [Nat.factorial, wrap64]
  · rw [hw]
    norm_num [Nat.factorial]

/-! ## Lemmas on `scanf_d` -/

theorem scanNumber_ok_length {neg : Bool} {s rest : List Char} {v : Int}
    (h : scanNumber neg s = ScanResult.ok v rest) : rest.length < s.length := by
  have hlen := congrArg List.length (List.takeWhile_append_dropWhile isdigit s)
  rw [List.length_append] at hlen
  unfold scanNumber at h
  by_cases hne : s.takeWhile isdigit = []
  · simp [hne] at h
  · have hpos : 0 < (s.takeWhile isdigit).length := List.length_pos.mpr hne
    simp only [hne, if_false] at h
    split_ifs at h
    · injection h with _ hr
      subst hr
      omega
    · injection h with _ hr
      subst hr
      omega

theorem scanNumber_fail {neg : Bool} {s rest : List Char}
    (h : scanNumber neg s = ScanResult.fail rest) : rest = s := by
  unfold scanNumber at h
  by_cases hne : s.takeWhile isdigit = []
  · simp only [hne, if_true] at h
    injection h with hr
    exact hr.symm
  · simp only [hne, if_false] at h
    split_ifs at h

theorem dropWhile_length_le (p : Char → Bool) (s : List Char) :
    (s.dropWhile p).length ≤ s.length := by
  have hlen := congrArg List.length (List.takeWhile_append_dropWhile p s)
  rw [List.length_append] at hlen
  omega

theorem scanf_d_ok_length {s rest : List Char} {v : Int}
    (h : scanf_d s = ScanResult.ok v rest) : rest.length < s.length := by
  have hd := dropWhile_length_le isspace s
  unfold scanf_d at h
  split at h
  · exact absurd h (by simp)
  · rename_i c t heq
    rw [heq] at hd
    simp only [List.length_cons] at hd
    split at h
    · have := scanNumber_ok_length h
      omega
    · split at h
      · have := scanNumber_ok_length h
        omega
      · have := scanNumber_ok_length h
        simp only [List.length_cons] at this
        omega

theorem scanf_d_fail_length {s rest : List Char}
    (h : scanf_d s = ScanResult.fail rest) : rest.length ≤ s.length := by
  have hd := dropWhile_length_le isspace s
  unfold scanf_d at h
  split at h
  · exact absurd h (by simp)
  · rename_i c t heq
    rw [heq] at hd
    simp only [List.length_cons] at hd
    split at h
    · have := scanNumber_fail h
      subst this
      omega
    · split at h
      · have := scanNumber_fail h
        subst this
        omega
      · have := scanNumber_fail h
        subst this
        simp only [List.length_cons]
        omega

theorem intOfLong_of_fits {x : Int} (h1 : INT_MIN ≤ x) (h2 : x ≤ INT_MAX) :
    intOfLong (strtolValue x) = x := by
  unfold INT_MIN at h1
  unfold INT_MAX at h2
  unfold intOfLong strtolValue LONG_MIN LONG_MAX
  rw [if_neg (by omega), if_neg (by omega)]
  omega

theorem print_menu_eq (w : World) :
    print_menu w = { w with stdout := w.stdout ++ menuText } := by
  simp [print_menu, menuText, printf]

theorem store_stdin {p i : Nat} {v : Int} {w w' : World} (h : store p i v w = some w') :
    w'.stdin = w.stdin := by
  unfold store at h
  split at h
  · exact absurd h (by simp)
  · split_ifs at h
    injection h with h
    subst h
    rfl

theorem fillSquares_stdin (a n : Nat) :
    ∀ (fuel i : Nat) (w w' : World), fillSquares a n fuel i w = some w' → w'.stdin = w.stdin := by
  intro fuel
  induction fuel with
  | zero =>
    intro i w w' h
    simp only [fillSquares, Option.some.injEq] at h
    subst h
    rfl
  | succ k ih =>
    intro i w w' h
    simp only [fillSquares] at h
    split_ifs at h
    · split at h
      · exact absurd h (by simp)
      · rename_i w1 hs
        rw [ih _ _ _ h, store_stdin hs]
    · injection h with h
      subst h
      rfl

theorem printCells_stdin (a n : Nat) :
    ∀ (fuel i : Nat) (w w' : World), printCells a n fuel i w = some w' → w'.stdin = w.stdin := by
  intro fuel
  induction fuel with
  | zero =>
    intro i w w' h
    simp only [printCells, Option.some.injEq] at h
    subst h
    rfl
  | succ k ih =>
    intro i w w' h
    simp only [printCells] at h
    split_ifs at h
    · split at h
      · exact absurd h (by simp)
      · rw [ih _ _ _ h]
        rfl
    · injection h with h
      subst h
      rfl

theorem malloc_stdin (bytes : Nat) (w : World) : (malloc bytes w).2.stdin = w.stdin := by
  unfold malloc
  split <;> rfl

theorem realloc_stdin {p bytes q : Nat} {w w' : World} (h : realloc p bytes w = some (q, w')) :
    w'.stdin = w.stdin := by
  unfold realloc at h
  split_ifs at h
  · injection h with h
    rw [← malloc_stdin bytes w, h]
  · split at h
    · exact absurd h (by simp)
    · split at h <;>
      · injection h with h
        injection h with _ h
        subst h
        rfl

theorem free_stdin {p : Nat} {w w' : World} (h : free p w = some w') : w'.stdin = w.stdin := by
  unfold free at h
  split_ifs at h
  · injection h with h
    subst h
    rfl
  · split at h
    · exact absurd h (by simp)
    · injection h with h
      subst h
      rfl

theorem ex_dynamic_memory_stdin {w w' : World} (h : ex_dynamic_memory w = some w') :
    w'.stdin = w.stdin := by
  unfold ex_dynamic_memory at h
  simp only at h
  have hm := malloc_stdin (5 * sizeof_int) w
  generalize malloc (5 * sizeof_int) w = r at h hm
  obtain ⟨a, w0⟩ := r
  simp only at h hm
  split_ifs at h
  · injection h with h
    subst h
    exact hm
  · split at h
    · exact absurd h (by simp)
    · rename_i w1 h1
      have e1 := fillSquares_stdin _ _ _ _ _ _ h1
      split at h
      · exact absurd h (by simp)
      · rename_i w2 h2
        have e2 := printCells_stdin _ _ _ _ _ _ h2
        split at h
        · exact absurd h (by simp)
        · rename_i b w3 h3
          have e3 := realloc_stdin h3
          split_ifs at h
          · have e4 := free_stdin h
            simp only [fprintf_stderr, printf] at e2 e3 e4
            rw [e4, e3, e2, e1, hm]
          · split at h
            · exact absurd h (by simp)
            · rename_i w4 h4
              have e4 := fillSquares_stdin _ _ _ _ _ _ h4
              split at h
              · exact absurd h (by simp)
              · rename_i w5 h5
                have e5 := printCells_stdin _ _ _ _ _ _ h5
                have e6 := free_stdin h
                simp only [fprintf_stderr, printf] at e2 e3 e4 e5 e6
                rw [e6, e5, e4, e3, e2, e1, hm]

theorem printIndexed_stdin (arr : List Int) (n : Nat) :
    ∀ (fuel i : Nat) (w w' : World), printIndexed arr n fuel i w = some w' → w'.stdin = w.stdin := by
  intro fuel
  induction fuel with
  | zero =>
    intro i w w' h
    simp only [printIndexed, Option.some.injEq] at h
    subst h
    rfl
  | succ k ih =>
    intro i w w' h
    simp only [printIndexed] at h
    split_ifs at h
    · split at h
      · exact absurd h (by simp)
      · rw [ih _ _ _ h]
        rfl
    · injection h with h
      subst h
      rfl

theorem printPointer_stdin (arr : List Int) (p n : Nat) :
    ∀ (fuel i : Nat) (w w' : World),
      printPointer arr p n fuel i w = some w' → w'.stdin = w.stdin := by
  intro fuel
  induction fuel with
  | zero =>
    intro i w w' h
    simp only [printPointer, Option.some.injEq] at h
    subst h
    rfl
  | succ k ih =>
    intro i w w' h
    simp only [printPointer] at h
    split_ifs at h
    · split at h
      · exact absurd h (by simp)
      · rw [ih _ _ _ h]
        rfl
    · injection h with h
      subst h
      rfl

theorem ex_arrays_pointers_stdin {w w' : World} (h : ex_arrays_pointers w = some w') :
    w'.stdin = w.stdin := by
  unfold ex_arrays_pointers at h
  simp only at h
  split at h
  · exact absurd h (by simp)
  · rename_i w1 h1
    have e1 := printIndexed_stdin _ _ _ _ _ _ h1
    split at h
    · exact absurd h (by simp)
    · rename_i w2 h2
      have e2 := printPointer_stdin _ _ _ _ _ _ _ h2
      injection h with h
      subst h
      simp only [printf] at e1 e2 ⊢
      rw [e2, e1]

theorem ex_strings_stdin {w w' : World} (h : ex_strings w = some w') :
    w'.stdin = w.stdin := by
  unfold ex_strings at h
  simp only at h
  split at h
  · exact absurd h (by simp)
  · split at h
    · exact absurd h (by simp)
    · injection h with h
      subst h
      rfl

theorem ex_factorial_interactive_stdin {w w' : World}
    (h : ex_factorial_interactive w = some w') : w'.stdin.length ≤ w.stdin.length := by
  unfold ex_factorial_interactive at h
  simp only [printf] at h
  split at h
  · injection h with h
    subst h
    simp [fprintf_stderr]
  · rename_i rest hs
    injection h with h
    subst h
    exact scanf_d_fail_length hs
  · rename_i n rest hs
    have hl := scanf_d_ok_length hs
    split_ifs at h
    · injection h with h
      subst h
      exact Nat.le_of_lt hl
    · unfold call_factorial at h
      cases hf : factorial n with
      | none =>
        rw [hf] at h
        exact absurd h (by simp)
      | some r =>
        rw [hf] at h
        injection h with h
        subst h
        exact Nat.le_of_lt hl

/-! ## The menu loop terminates -/

theorem ex_hello_stdin (w : World) : (ex_hello w).stdin = w.stdin := by
  simp only [ex_hello, printf]

theorem ex_types_stdin (w : World) : (ex_types w).stdin = w.stdin := by
  simp only [ex_types, printf]

theorem printCount_stdin (n : Nat) :
    ∀ (fuel i : Nat) (w : World), (printCount n fuel i w).stdin = w.stdin := by
  intro fuel
  induction fuel with
  | zero => intro i w; rfl
  | succ k ih =>
    intro i w
    simp only [printCount]
    split_ifs
    · rw [ih]
      rfl
    · rfl

theorem ex_control_stdin (w : World) : (ex_control w).stdin = w.stdin := by
  unfold ex_control
  simp only [printf, printCount_stdin]
  split_ifs <;> rfl

theorem ex_functions_stdin (w : World) : (ex_functions w).stdin = w.stdin := by
  simp only [ex_functions, printf]

theorem ex_structs_stdin (w : World) : (ex_structs w).stdin = w.stdin := by
  simp only [ex_structs, printf]

theorem ofRoutine_next {r : Option World} {w' : World} (h : Step.ofRoutine r = Step.next w') :
    r = some w' := by
  cases r with
  | none => exact absurd h (by simp [Step.ofRoutine])
  | some w1 =>
    simp only [Step.ofRoutine, Step.next.injEq] at h
    rw [h]

theorem runChoice_next_length {choice : Int} {w w' : World}
    (h : runChoice choice w = Step.next w') : w'.stdin.length ≤ w.stdin.length := by
  unfold runChoice at h
  by_cases h1 : choice = 1
  · rw [if_pos h1] at h
    rw [← Step.next.inj h, ex_hello_stdin]
  rw [if_neg h1] at h
  by_cases h2 : choice = 2
  · rw [if_pos h2] at h
    rw [← Step.next.inj h, ex_types_stdin]
  rw [if_neg h2] at h
  by_cases h3 : choice = 3
  · rw [if_pos h3] at h
    rw [← Step.next.inj h, ex_control_stdin]
  rw [if_neg h3] at h
  by_cases h4 : choice = 4
  · rw [if_pos h4] at h
    rw [← Step.next.inj h, ex_functions_stdin]
  rw [if_neg h4] at h
  by_cases h5 : choice = 5
  · rw [if_pos h5] at h
    rw [ex_arrays_pointers_stdin (ofRoutine_next h)]
  rw [if_neg h5] at h
  by_cases h6 : choice = 6
  · rw [if_pos h6] at h
    rw [ex_strings_stdin (ofRoutine_next h)]
  rw [if_neg h6] at h
  by_cases h7 : choice = 7
  · rw [if_pos h7] at h
    rw [ex_dynamic_memory_stdin (ofRoutine_next h)]
  rw [if_neg h7] at h
  by_cases h8 : choice = 8
  · rw [if_pos h8] at h
    rw [← Step.next.inj h, ex_structs_stdin]
  rw [if_neg h8] at h
  by_cases h9 : choice = 9
  · rw [if_pos h9] at h
    exact ex_factorial_interactive_stdin (ofRoutine_next h)
  rw [if_neg h9] at h
  by_cases h0 : choice = 0
  · rw [if_pos h0] at h
    exact Step.noConfusion h
  rw [if_neg h0] at h
  rw [← Step.next.inj h]
  exact Nat.le_refl _

theorem readChoice_next_length {w w' : World} (h : readChoice w = Step.next w') :
    w'.stdin.length < w.stdin.length := by
  unfold readChoice at h
  split at h
  · exact absurd h (by simp)
  · exact absurd h (by simp)
  · rename_i choice rest hs
    have h1 := runChoice_next_length h
    have h2 := scanf_d_ok_length hs
    exact Nat.lt_of_le_of_lt h1 h2

theorem loopBody_next_length {w w' : World} (h : loopBody w = Step.next w') :
    w'.stdin.length < w.stdin.length := by
  unfold loopBody at h
  have := readChoice_next_length h
  rw [print_menu_eq] at this
  exact this

/-- With more passes allowed than characters of input, the number allowed does
not matter. -/
theorem mainLoop_fuel :
    ∀ (fuel1 fuel2 : Nat) (w : World), w.stdin.length < fuel1 → w.stdin.length < fuel2 →
      mainLoop fuel1 w = mainLoop fuel2 w := by
  intro fuel1
  induction fuel1 with
  | zero => intro fuel2 w h1 _; exact absurd h1 (Nat.not_lt_zero _)
  | succ k ih =>
    intro fuel2 w h1 h2
    cases fuel2 with
    | zero => exact absurd h2 (Nat.not_lt_zero _)
    | succ m =>
      simp only [mainLoop]
      cases hb : loopBody w with
      | next w1 =>
        have hl := loopBody_next_length hb
        exact ih m w1 (by omega) (by omega)
      | stop status w1 => rfl
      | ub => rfl

/-- The loop never stops for lack of fuel. -/
theorem mainLoop_ne_outOfFuel :
    ∀ (fuel : Nat) (w w' : World), w.stdin.length < fuel →
      mainLoop fuel w ≠ Outcome.outOfFuel w' := by
  intro fuel
  induction fuel with
  | zero => intro w w' h; exact absurd h (Nat.not_lt_zero _)
  | succ k ih =>
    intro w w' h
    simp only [mainLoop]
    cases hb : loopBody w with
    | next w1 =>
      have hl := loopBody_next_length hb
      exact ih w1 w' (by omega)
    | stop status w1 => simp
    | ub => simp

/-- One pass of the loop, then the loop again. -/
theorem run_unfold (w : World) :
    run w =
      match loopBody w with
      | Step.next w1 => run w1
      | Step.stop status w1 => Outcome.exited status w1
      | Step.ub => Outcome.ub := by
  unfold run
  simp only [mainLoop]
  cases hb : loopBody w with
  | next w1 =>
    have hl := loopBody_next_length hb
    exact mainLoop_fuel _ _ w1 hl (Nat.lt_succ_self _)
  | stop status w1 => rfl
  | ub => rfl

/-! ## Lemmas on one pass of the loop -/

theorem readChoice_print_menu (w : World) :
    (print_menu w).stdin = w.stdin := by
  rw [print_menu_eq]

theorem ex_factorial_interactive_range {w : World} {n : Int} {rest : List Char}
    (hs : scanf_d w.stdin = ScanResult.ok n rest) (hn : n < 0 ∨ 20 < n) :
    ex_factorial_interactive w = some
      { w with
        stdin := rest
        stdout := w.stdout ++ ["Enter a non-negative integer (0-20): "]
        stderr := w.stderr ++ ["Please enter a value between 0 and 20.\\n"] } := by
  unfold ex_factorial_interactive
  simp only [printf, hs]
  rw [if_pos (by omega)]
  rfl

theorem ex_factorial_interactive_fail {w : World} {rest : List Char}
    (hs : scanf_d w.stdin = ScanResult.fail rest) :
    ex_factorial_interactive w = some
      { w with
        stdin := rest
        stdout := w.stdout ++ ["Enter a non-negative integer (0-20): "]
        stderr := w.stderr ++ ["Invalid input.\\n"] } := by
  unfold ex_factorial_interactive
  simp only [printf, hs]
  rfl

theorem loopBody_nine {w : World} {rest : List Char}
    (hs : scanf_d w.stdin = ScanResult.ok 9 rest) :
    loopBody w = Step.ofRoutine (ex_factorial_interactive
      { w with stdin := rest, stdout := w.stdout ++ menuText }) := by
  unfold loopBody readChoice
  rw [readChoice_print_menu, hs]
  simp only [print_menu_eq]
  rfl

/-- After selection 9, an integer outside 0..20 is reported and the loop goes
on with the input that follows the integer. -/
theorem run_nine_out_of_range {w : World} {rest rest2 : List Char} {n : Int}
    (hs : scanf_d w.stdin = ScanResult.ok 9 rest)
    (hn : scanf_d rest = ScanResult.ok n rest2) (hr : n < 0 ∨ 20 < n) :
    run w = run
      { w with
        stdin := rest2
        stdout := w.stdout ++ menuText ++ ["Enter a non-negative integer (0-20): "]
        stderr := w.stderr ++ ["Please enter a value between 0 and 20.\\n"] } := by
  rw [run_unfold w, loopBody_nine hs,
    ex_factorial_interactive_range (w := { w with stdin := rest, stdout := w.stdout ++ menuText })
      hn hr]
  rfl

/-- After selection 9, input that does not start an integer is reported by the
routine, stays unread, fails the next read of a selection as well, and the
process ends with status 1. -/
theorem run_nine_unread {w : World} {rest rest2 rest3 : List Char}
    (hs : scanf_d w.stdin = ScanResult.ok 9 rest)
    (hf : scanf_d rest = ScanResult.fail rest2)
    (hf2 : scanf_d rest2 = ScanResult.fail rest3) :
    run w = Outcome.exited 1
      { w with
        stdin := rest3
        stdout := w.stdout ++ menuText ++ ["Enter a non-negative integer (0-20): "] ++ menuText
        stderr := w.stderr ++ ["Invalid input.\\n", "\nInput error. Exiting.\n"] } := by
  rw [run_unfold w, loopBody_nine hs,
    ex_factorial_interactive_fail (w := { w with stdin := rest, stdout := w.stdout ++ menuText })
      hf]
  simp only [Step.ofRoutine]
  rw [run_unfold]
  unfold loopBody readChoice
  rw [readChoice_print_menu]
  simp only [hf2, print_menu_eq, fprintf_stderr, List.append_assoc, List.singleton_append]

/-- C3, evaluated: on the input "9", "abc", "1", "0" the routine reports the
invalid token and returns, the menu is displayed a second time, the read of
the next selection meets the same unread "abc", and the process ends with
status 1; selections 1 and 0 are never read and "Hello, C!" is never printed.
On the input "9", "21", "1", "0" the same selections are carried out and the
process ends with status 0. -/
theorem invalid_factorial_token_ends_process :
    main "9\nabc\n1\n0\n" [] = Outcome.exited 1
        { stdin := "abc\n1\n0\n".toList
          stdout := menuText ++ ["Enter a non-negative integer (0-20): "] ++ menuText
          stderr := ["Invalid input.\\n", "\nInput error. Exiting.\n"]
          heap := { blocks := [], count := 0, freed := [] }
          alloc := []
          factorialCalls := [] }
    ∧ main "9\n21\n1\n0\n" [] = Outcome.exited 0
        { stdin := "\n".toList
          stdout := menuText ++ ["Enter a non-negative integer (0-20): "] ++ menuText
            ++ ["Hello, C!\\n"] ++ menuText ++ ["Bye!\\n"]
          stderr := ["Please enter a value between 0 and 20.\\n"]
          heap := { blocks := [], count := 0, freed := [] }
          alloc := []
          factorialCalls := [] } := by
  constructor <;> decide

/-! ## Claims on the dynamic-memory routine -/

theorem ex_dynamic_memory_malloc_fail {w : World} {r1 : List AllocChoice}
    (hp1 : popChoice w.alloc = (AllocChoice.fail, r1)) :
    ex_dynamic_memory w = some
      { w with alloc := r1, stderr := w.stderr ++ ["malloc failed\n"] } := by
  simp [ex_dynamic_memory, malloc, hp1, fprintf_stderr]

theorem ex_dynamic_memory_realloc_fail {w : World} {c1 : AllocChoice}
    {r1 r2 : List AllocChoice} (hp1 : popChoice w.alloc = (c1, r1))
    (hc1 : c1 ≠ AllocChoice.fail) (hp2 : popChoice r1 = (AllocChoice.fail, r2)) :
    ex_dynamic_memory w = some
      { w with
        alloc := r2
        stdout := w.stdout ++ ["malloc: ", "0 ", "1 ", "4 ", "9 ", "16 ", "\\n"]
        stderr := w.stderr ++ ["realloc failed\n"]
        heap := { blocks := w.heap.blocks
                  count := w.heap.count + 1
                  freed := w.heap.freed ++ [w.heap.count + 1] } } := by
  cases c1 with
  | fail => exact absurd rfl hc1
  | inPlace =>
    simp [ex_dynamic_memory, malloc, realloc, free, fillSquares, printCells, store, load,
      findBlock, setBlock, dropBlock, hp1, hp2, sizeof_int, printf, fprintf_stderr]
    decide
  | moved =>
    simp [ex_dynamic_memory, malloc, realloc, free, fillSquares, printCells, store, load,
      findBlock, setBlock, dropBlock, hp1, hp2, sizeof_int, printf, fprintf_stderr]
    decide

theorem ex_dynamic_memory_in_place {w : World} {c1 : AllocChoice}
    {r1 r2 : List AllocChoice} (hp1 : popChoice w.alloc = (c1, r1))
    (hc1 : c1 ≠ AllocChoice.fail) (hp2 : popChoice r1 = (AllocChoice.inPlace, r2)) :
    ex_dynamic_memory w = some
      { w with
        alloc := r2
        stdout := w.stdout ++ ["malloc: ", "0 ", "1 ", "4 ", "9 ", "16 ", "\\n",
          "realloc: ", "0 ", "1 ", "4 ", "9 ", "16 ", "25 ", "36 ", "49 ", "\\n"]
        heap := { blocks := w.heap.blocks
                  count := w.heap.count + 1
                  freed := w.heap.freed ++ [w.heap.count + 1] } } := by
  cases c1 with
  | fail => exact absurd rfl hc1
  | inPlace =>
    simp [ex_dynamic_memory, malloc, realloc, free, fillSquares, printCells, store, load,
      findBlock, setBlock, dropBlock, hp1, hp2, resizeCells, sizeof_int, printf]
    decide
  | moved =>
    simp [ex_dynamic_memory, malloc, realloc, free, fillSquares, printCells, store, load,
      findBlock, setBlock, dropBlock, hp1, hp2, resizeCells, sizeof_int, printf]
    decide

theorem ex_dynamic_memory_moved {w : World} {c1 : AllocChoice}
    {r1 r2 : List AllocChoice} (hp1 : popChoice w.alloc = (c1, r1))
    (hc1 : c1 ≠ AllocChoice.fail) (hp2 : popChoice r1 = (AllocChoice.moved, r2)) :
    ex_dynamic_memory w = some
      { w with
        alloc := r2
        stdout := w.stdout ++ ["malloc: ", "0 ", "1 ", "4 ", "9 ", "16 ", "\\n",
          "realloc: ", "0 ", "1 ", "4 ", "9 ", "16 ", "25 ", "36 ", "49 ", "\\n"]
        heap := { blocks := w.heap.blocks
                  count := w.heap.count + 2
                  freed := w.heap.freed ++ [w.heap.count + 1, w.heap.count + 2] } } := by
  cases c1 with
  | fail => exact absurd rfl hc1
  | inPlace =>
    simp [ex_dynamic_memory, malloc, realloc, free, fillSquares, printCells, store, load,
      findBlock, setBlock, dropBlock, hp1, hp2, resizeCells, sizeof_int, printf]
    decide
  | moved =>
    simp [ex_dynamic_memory, malloc, realloc, free, fillSquares, printCells, store, load,
      findBlock, setBlock, dropBlock, hp1, hp2, resizeCells, sizeof_int, printf]
    decide

theorem findBlock_setBlock {p : Nat} {cells new : List (Option Int)} :
    ∀ {bs : List (Nat × List (Option Int))}, findBlock p bs = some cells →
      findBlock p (setBlock p new bs) = some new := by
  intro bs
  induction bs with
  | nil => intro h; exact absurd h (by simp [findBlock])
  | cons hd tl ih =>
    obtain ⟨q, old⟩ := hd
    intro h
    by_cases hq : q = p
    · simp [setBlock, findBlock, hq]
    · simp only [findBlock, if_neg hq] at h
      simp only [setBlock, if_neg hq, findBlock]
      exact ih h

theorem store_findBlock {p i : Nat} {v : Int} {w : World} {cells : List (Option Int)}
    (hf : findBlock p w.heap.blocks = some cells) (hi : i < cells.length) :
    ∃ w', store p i v w = some w'
      ∧ findBlock p w'.heap.blocks = some (cells.set i (some v)) := by
  have hs : store p i v w = some
      { w with
        heap := { blocks := setBlock p (cells.set i (some v)) w.heap.blocks
                  count := w.heap.count
                  freed := w.heap.freed } } := by
    unfold store
    rw [hf]
    simp only [if_pos hi]
  exact ⟨_, hs, findBlock_setBlock hf⟩

theorem realloc_findBlock {p bytes q : Nat} {w w' : World} {cells : List (Option Int)}
    (hp : p ≠ 0) (hf : findBlock p w.heap.blocks = some cells)
    (h : realloc p bytes w = some (q, w')) (hq : q ≠ 0) :
    findBlock q w'.heap.blocks = some (resizeCells cells (bytes / sizeof_int)) := by
  unfold realloc at h
  rw [if_neg hp, hf] at h
  simp only at h
  split at h
  · simp only [Option.some.injEq, Prod.mk.injEq] at h
    exact absurd h.1.symm hq
  · simp only [Option.some.injEq, Prod.mk.injEq] at h
    obtain ⟨h1, h2⟩ := h
    subst h1 h2
    exact findBlock_setBlock hf
  · simp only [Option.some.injEq, Prod.mk.injEq] at h
    obtain ⟨h1, h2⟩ := h
    subst h1 h2
    simp [findBlock]

/-- The grow step of `ex_dynamic_memory`: a block of five cells resized to
eight and filled from slot 5 keeps its first five cells and gets 25, 36, 49
in slots 5..7. -/
theorem grow_keeps_first_five {a b : Nat} {w0 w1 : World} {cells : List (Option Int)}
    (ha : a ≠ 0) (hf : findBlock a w0.heap.blocks = some cells) (hlen : cells.length = 5)
    (hr : realloc a (8 * sizeof_int) w0 = some (b, w1)) (hb : b ≠ 0) :
    ∃ w2, fillSquares b 8 (8 - 5) 5 w1 = some w2
      ∧ findBlock b w2.heap.blocks = some (cells ++ [some 25, some 36, some 49]) := by
  have h1 := realloc_findBlock ha hf hr hb
  have e : resizeCells cells (8 * sizeof_int / sizeof_int) = cells ++ [none, none, none] := by
    simp [resizeCells, sizeof_int, hlen, List.take_of_length_le, List.replicate]
  rw [e] at h1
  obtain ⟨w5, hs5, hf5⟩ := store_findBlock (v := ((5 : Nat) : Int) * ((5 : Nat) : Int)) (i := 5) h1
    (by simp [hlen])
  obtain ⟨w6, hs6, hf6⟩ := store_findBlock (v := ((6 : Nat) : Int) * ((6 : Nat) : Int)) (i := 6) hf5
    (by simp [hlen])
  obtain ⟨w7, hs7, hf7⟩ := store_findBlock (v := ((7 : Nat) : Int) * ((7 : Nat) : Int)) (i := 7) hf6
    (by simp [hlen])
  refine ⟨w7, ?_, ?_⟩
  · simp only [fillSquares, Nat.reduceSub, Nat.reduceAdd, Nat.reduceLT, if_true]
    rw [hs5]
    simp only
    rw [hs6]
    simp only
    rw [hs7]
  · rw [hf7]
    match cells, hlen with
    | [c0, c1, c2, c3, c4], _ => rfl

/-- C5: when neither allocation step fails, `ex_dynamic_memory` prints the
squares of 0..4 and then the squares of 0..7.  The grow step keeps the first
five cells of the block and fills slots 5..7 only. -/
theorem ex_dynamic_memory_prints_squares (w : World)
    (h1 : (popChoice w.alloc).1 ≠ AllocChoice.fail)
    (h2 : (popChoice (popChoice w.alloc).2).1 ≠ AllocChoice.fail) :
    (∃ w', ex_dynamic_memory w = some w'
      ∧ w'.stdout = w.stdout ++ ["malloc: ", "0 ", "1 ", "4 ", "9 ", "16 ", "\\n"]
          ++ ["realloc: ", "0 ", "1 ", "4 ", "9 ", "16 ", "25 ", "36 ", "49 ", "\\n"]
      ∧ w'.stderr = w.stderr)
    ∧ ∀ (a b : Nat) (w0 w1 : World) (cells : List (Option Int)),
        a ≠ 0 → findBlock a w0.heap.blocks = some cells → cells.length = 5 →
        realloc a (8 * sizeof_int) w0 = some (b, w1) → b ≠ 0 →
        ∃ w2, fillSquares b 8 (8 - 5) 5 w1 = some w2
          ∧ findBlock b w2.heap.blocks = some (cells ++ [some 25, some 36, some 49]) := by
  refine ⟨?_, fun a b w0 w1 cells ha hf hlen hr hb => grow_keeps_first_five ha hf hlen hr hb⟩
  rcases hp1 : popChoice w.alloc with ⟨c1, r1⟩
  rcases hp2 : popChoice r1 with ⟨c2, r2⟩
  rw [hp1] at h1 h2
  simp only at h1 h2
  rw [hp2] at h2
  simp only at h2
  cases c2 with
  | fail => exact absurd rfl h2
  | inPlace =>
    refine ⟨_, ex_dynamic_memory_in_place hp1 h1 hp2, ?_, rfl⟩
    simp
  | moved =>
    refine ⟨_, ex_dynamic_memory_moved hp1 h1 hp2, ?_, rfl⟩
    simp

/-- An instance of C5: from the initial world, the allocator never failing. -/
theorem ex_dynamic_memory_prints_squares_witness :
    ∃ w', ex_dynamic_memory (World.start [] []) = some w'
      ∧ w'.stdout = (World.start [] []).stdout
          ++ ["malloc: ", "0 ", "1 ", "4 ", "9 ", "16 ", "\\n"]
          ++ ["realloc: ", "0 ", "1 ", "4 ", "9 ", "16 ", "25 ", "36 ", "49 ", "\\n"]
      ∧ w'.stderr = (World.start [] []).stderr :=
  (ex_dynamic_memory_prints_squares (World.start [] []) (by decide) (by decide)).1

/-- C6: `ex_dynamic_memory` always returns, and on return the live blocks are
those of before the call.  Every address handed out during the call is
released exactly once: the release log grows by exactly those addresses, each
once.  When `malloc` fails the heap is untouched; when `realloc` fails the one
block released is the block `malloc` returned. -/
theorem ex_dynamic_memory_releases (w : World) :
    ∃ w', ex_dynamic_memory w = some w'
      ∧ w'.heap.blocks = w.heap.blocks
      ∧ w'.heap.freed = w.heap.freed
          ++ List.range' (w.heap.count + 1) (w'.heap.count - w.heap.count)
      ∧ ((popChoice w.alloc).1 = AllocChoice.fail → w'.heap = w.heap)
      ∧ ((popChoice w.alloc).1 ≠ AllocChoice.fail →
          (popChoice (popChoice w.alloc).2).1 = AllocChoice.fail →
          (malloc (5 * sizeof_int) w).1 = w.heap.count + 1
            ∧ w'.heap.count = w.heap.count + 1
            ∧ w'.heap.freed = w.heap.freed ++ [w.heap.count + 1])
      ∧ ((popChoice w.alloc).1 ≠ AllocChoice.fail →
          (popChoice (popChoice w.alloc).2).1 ≠ AllocChoice.fail →
          w'.heap.count = w.heap.count + 1
              ∧ w'.heap.freed = w.heap.freed ++ [w.heap.count + 1]
            ∨ w'.heap.count = w.heap.count + 2
              ∧ w'.heap.freed = w.heap.freed ++ [w.heap.count + 1, w.heap.count + 2]) := by
  rcases hp1 : popChoice w.alloc with ⟨c1, r1⟩
  rcases hp2 : popChoice r1 with ⟨c2, r2⟩
  simp only [hp2]
  by_cases hc1 : c1 = AllocChoice.fail
  · subst hc1
    refine ⟨_, ex_dynamic_memory_malloc_fail hp1, rfl, ?_, fun _ => rfl,
      fun h => absurd rfl h, fun h => absurd rfl h⟩
    simp
  · have hm : (malloc (5 * sizeof_int) w).1 = w.heap.count + 1 := by
      unfold malloc
      rw [hp1]
      cases c1 with
      | fail => exact absurd rfl hc1
      | inPlace => rfl
      | moved => rfl
    cases c2 with
    | fail =>
      refine ⟨_, ex_dynamic_memory_realloc_fail hp1 hc1 hp2, rfl, ?_, fun h => absurd h hc1,
        fun _ _ => ⟨hm, rfl, rfl⟩, fun _ h => absurd rfl h⟩
      simp [List.range']
    | inPlace =>
      refine ⟨_, ex_dynamic_memory_in_place hp1 hc1 hp2, rfl, ?_, fun h => absurd h hc1,
        fun _ h => absurd h (by simp), fun _ _ => Or.inl ⟨rfl, rfl⟩⟩
      simp [List.range']
    | moved =>
      refine ⟨_, ex_dynamic_memory_moved hp1 hc1 hp2, rfl, ?_, fun h => absurd h hc1,
        fun _ h => absurd h (by simp), fun _ _ => Or.inr ⟨rfl, rfl⟩⟩
      simp [List.range']

/-- Instances of C6: `malloc` failing, `realloc` failing, and both succeeding,
each from the initial world. -/
theorem ex_dynamic_memory_releases_witness :
    (∃ w', ex_dynamic_memory (World.start [] [AllocChoice.fail]) = some w'
      ∧ w'.heap = (World.start [] [AllocChoice.fail]).heap)
    ∧ (∃ w', ex_dynamic_memory (World.start [] [AllocChoice.moved, AllocChoice.fail]) = some w'
      ∧ w'.heap.blocks = [] ∧ w'.heap.freed = [] ++ [0 + 1])
    ∧ (∃ w', ex_dynamic_memory (World.start [] [AllocChoice.moved, AllocChoice.moved]) = some w'
      ∧ w'.heap.blocks = []
      ∧ (w'.heap.count = 0 + 1 ∧ w'.heap.freed = [] ++ [0 + 1]
        ∨ w'.heap.count = 0 + 2 ∧ w'.heap.freed = [] ++ [0 + 1, 0 + 2])) := by
  refine ⟨?_, ?_, ?_⟩
  · obtain ⟨w', h, _, _, hfail, _, _⟩ :=
      ex_dynamic_memory_releases (World.start [] [AllocChoice.fail])
    exact ⟨w', h, hfail (by decide)⟩
  · obtain ⟨w', h, hb, _, _, hre, _⟩ :=
      ex_dynamic_memory_releases (World.start [] [AllocChoice.moved, AllocChoice.fail])
    exact ⟨w', h, hb, (hre (by decide) (by decide)).2.2⟩
  · obtain ⟨w', h, hb, _, _, _, hok⟩ :=
      ex_dynamic_memory_releases (World.start [] [AllocChoice.moved, AllocChoice.moved])
    exact ⟨w', h, hb, hok (by decide) (by decide)⟩

/-! ## Claims on `swap`, the array example and the string example -/

/-- C7: for two distinct locations, `swap` leaves in each the value the other
held and changes no other location; `ex_functions`, starting from `a = 3` and
`b = 9`, prints `a=9 b=3`. -/
theorem swap_exchanges (a b : Nat) (m : Mem) (hab : a ≠ b) :
    swap a b m a = m b ∧ swap a b m b = m a
      ∧ (∀ c, c ≠ a → c ≠ b → swap a b m c = m c)
      ∧ ∀ w : World, ex_functions w = printf "swap -> a=9 b=3\\n" w := by
  refine ⟨?_, ?_, ?_, ?_⟩
  · simp [swap, Function.update, hab]
  · simp [swap, Function.update]
  · intro c hca hcb
    simp [swap, Function.update, hca, hcb]
  · intro w
    simp only [ex_functions, swap, Function.update]
    rfl

/-- An instance of C7: locations 0 and 1 holding 3 and 9. -/
theorem swap_exchanges_witness :
    swap 0 1 (fun k => if k = 0 then 3 else 9) 0 = 9
      ∧ swap 0 1 (fun k => if k = 0 then 3 else 9) 1 = 3 :=
  ⟨(swap_exchanges 0 1 (fun k => if k = 0 then 3 else 9) (by decide)).1,
   (swap_exchanges 0 1 (fun k => if k = 0 then 3 else 9) (by decide)).2.1⟩

theorem subscript_eq_deref (arr : List Int) (i : Nat) :
    subscript arr i = deref arr (0 + i) := by
  unfold subscript deref
  rw [Nat.zero_add]
  induction arr generalizing i with
  | nil => simp
  | cons x xs ih =>
    cases i with
    | zero => simp
    | succ k => simp

/-- C9: `ex_arrays_pointers` prints 10, 20, 30, 40, 50 by indexing and the same
five values by pointer offset; for each `i` in 0..4 the read `arr[i]` and the
read `*(p+i)` are inside the array and give the same value, and indexing and
pointer offset from the start agree on every array. -/
theorem ex_arrays_pointers_sequences (w : World) :
    ex_arrays_pointers w = some
        { w with
          stdout := w.stdout ++ ["arr via indexing: ", "10 ", "20 ", "30 ", "40 ", "50 ",
            "\\narr via pointer:  ", "10 ", "20 ", "30 ", "40 ", "50 ", "\\n"] }
      ∧ (∀ i : Fin 5,
          subscript [10, 20, 30, 40, 50] i.val = some (10 * ((i.val : Int) + 1))
            ∧ deref [10, 20, 30, 40, 50] (0 + i.val) = some (10 * ((i.val : Int) + 1)))
      ∧ (∀ (arr : List Int) (i : Nat), subscript arr i = deref arr (0 + i))
      ∧ ∀ (fuel i : Nat) (w0 : World),
          printIndexed [10, 20, 30, 40, 50] 5 fuel i w0
            = printPointer [10, 20, 30, 40, 50] 0 5 fuel i w0 := by
  refine ⟨?_, ?_, subscript_eq_deref, ?_⟩
  · simp [ex_arrays_pointers, printIndexed, printPointer, subscript, deref, printf]
    decide
  · intro i
    fin_cases i <;> simp [subscript, deref]
  · intro fuel
    induction fuel with
    | zero => intro i w0; rfl
    | succ k ih =>
      intro i w0
      simp only [printIndexed, printPointer, subscript_eq_deref]
      split_ifs
      · split
        · rfl
        · exact ih _ _
      · rfl

theorem cstring_cons_ne {c : Char} (rest : List Char) (h : c ≠ NUL) :
    cstring (c :: rest) = c :: cstring rest := by
  unfold cstring
  rw [List.takeWhile_cons]
  simp [h]

theorem cstring_cons_NUL (rest : List Char) : cstring (NUL :: rest) = [] := by
  unfold cstring
  rw [List.takeWhile_cons]
  simp

theorem NUL_not_mem_cstring (l : List Char) : NUL ∉ cstring l := by
  induction l with
  | nil => simp [cstring]
  | cons c rest ih =>
    by_cases hc : c = NUL
    · subst hc
      rw [cstring_cons_NUL]
      simp
    · rw [cstring_cons_ne rest hc]
      intro hm
      rcases List.mem_cons.mp hm with h | h
      · exact hc h.symm
      · exact ih h

theorem my_strlen_loop_eq (l : List Char) :
    ∀ k : Nat, my_strlen_loop l k = if NUL ∈ l then some (k + (cstring l).length) else none := by
  induction l with
  | nil => intro k; simp [my_strlen_loop]
  | cons c rest ih =>
    intro k
    by_cases hc : c = NUL
    · subst hc
      simp [my_strlen_loop, cstring_cons_NUL]
    · have hc2 : ¬ NUL = c := fun h => hc h.symm
      rw [cstring_cons_ne rest hc]
      simp only [my_strlen_loop, ne_eq, hc, not_false_eq_true, if_true, ih, List.mem_cons, hc2,
        false_or, List.length_cons]
      split_ifs
      · congr 1
        omega
      · rfl

theorem cstring_append_NUL (cs tail : List Char) (h : NUL ∉ cs) :
    cstring (cs ++ NUL :: tail) = cs := by
  induction cs with
  | nil => exact cstring_cons_NUL tail
  | cons c rest ih =>
    have hc : c ≠ NUL := fun e => h (by simp [e])
    have hr : NUL ∉ rest := fun e => h (by simp [e])
    rw [List.cons_append, cstring_cons_ne _ hc, ih hr]

/-- C8: `ex_strings` appends "Vision" to "Apple" in its 32-byte buffer and
prints length 11.  For every string `cs` without NUL stored with its
terminator anywhere in an object, `my_strlen` returns the number of characters
of `cs`; and whenever `strcat` is defined, `my_strlen` of its result is the
sum of `my_strlen` of its two arguments. -/
theorem my_strlen_counts (w : World) :
    ex_strings w = some (printf "buf=\x27AppleVision\x27 len=11\\n" w)
      ∧ (strcat (charArray 32 "Apple") (charArray 7 "Vision")
          = some (charArray 32 "AppleVision")
        ∧ (charArray 32 "Apple").length = 32
        ∧ my_strlen (charArray 32 "AppleVision") 0 = some 11)
      ∧ (∀ (before cs tail : List Char), NUL ∉ cs →
          my_strlen (before ++ cs ++ NUL :: tail) before.length = some cs.length)
      ∧ ∀ (dest src out : List Char) (la lb : Nat),
          my_strlen dest 0 = some la → my_strlen src 0 = some lb →
          strcat dest src = some out → my_strlen out 0 = some (la + lb) := by
  refine ⟨by rfl, ⟨by decide, by decide, by decide⟩, ?_, ?_⟩
  · intro before cs tail h
    unfold my_strlen
    rw [List.append_assoc, List.drop_left, my_strlen_loop_eq, if_pos (by simp),
      cstring_append_NUL cs tail h, Nat.zero_add]
  · intro dest src out la lb hd hs hcat
    unfold my_strlen at hd hs ⊢
    rw [List.drop_zero, my_strlen_loop_eq] at hd hs ⊢
    unfold strcat at hcat
    split_ifs at hcat with hfit
    split_ifs at hd hs
    simp only [Nat.zero_add, Option.some.injEq] at hd hs hcat
    subst hd hs hcat
    have hn : NUL ∉ cstring dest ++ cstring src := by
      simp [NUL_not_mem_cstring]
    have e : cstring dest ++ cstring src ++ [NUL]
          ++ List.drop ((cstring dest).length + (cstring src).length + 1) dest
        = (cstring dest ++ cstring src) ++ NUL
          :: List.drop ((cstring dest).length + (cstring src).length + 1) dest := by
      simp
    rw [e, if_pos (by simp), cstring_append_NUL _ _ hn]
    simp

/-- An instance of C8: "ab" stored at the start of a five-byte object, "c" in
a two-byte object, and their concatenation. -/
theorem my_strlen_counts_witness :
    my_strlen ([] ++ ['a', 'b'] ++ NUL :: [NUL, NUL]) ([] : List Char).length
        = some ['a', 'b'].length
      ∧ my_strlen ['a', 'b', 'c', NUL, NUL] 0 = some (2 + 1) :=
  ⟨(my_strlen_counts (World.start [] [])).2.2.1 [] ['a', 'b'] [NUL, NUL] (by decide),
   (my_strlen_counts (World.start [] [])).2.2.2 ['a', 'b', NUL, NUL, NUL] ['c', NUL]
      ['a', 'b', 'c', NUL, NUL] 2 1 (by decide) (by decide) (by decide)⟩

/-! ## Every run of the menu loop ends in a return from `main` -/

end CLessons
